import Mathlib

/-!
SSHLive core — shallow embedding and verification.

Shallow embedding of the SSHLive core (an Electron SSH client): the key
manager (`src/electron/key-manager.ts`) and the SSH session manager
(`ssh-manager.ts`).  JavaScript `Map`s become association lists kept in
insertion order, Node `Buffer`s become `List Nat` with every byte `< 256`,
thrown errors become `Except`, and the nondeterministic inputs of the real
system (uuid allocation, wall-clock time, the remote transport's events,
generated key pairs) become explicit oracle parameters.
-/

deriving instance DecidableEq for Except

/-! ## Association-list model of JavaScript `Map` (insertion order preserved) -/

/-- `Map.get`: first binding for the key, if any. -/
def mapLookup {α : Type} (m : List (String × α)) (k : String) : Option α :=
  match m with
  | [] => none
  | (k', v) :: rest => if k' = k then some v else mapLookup rest k

/-- `Map.set`: replace the existing binding in place (JS `Map` keeps the
original insertion position) or append a new one. -/
def mapSet {α : Type} (m : List (String × α)) (k : String) (v : α) :
    List (String × α) :=
  match m with
  | [] => [(k, v)]
  | (k', v') :: rest =>
    if k' = k then (k, v) :: rest else (k', v') :: mapSet rest k v

/-- Update the value stored for `k`, if present; the no-binding case is
unreachable for the call sites that use it (handlers close over a session
that was inserted when it was created and is never deleted). -/
def mapUpdate {α : Type} (m : List (String × α)) (k : String) (f : α → α) :
    List (String × α) :=
  match m with
  | [] => []
  | (k', v) :: rest =>
    if k' = k then (k', f v) :: rest else (k', v) :: mapUpdate rest k f

/-- `Map.values()`, in insertion order. -/
def mapValues {α : Type} (m : List (String × α)) : List α :=
  m.map (·.2)

/-! ## Bytes, hex rendering

Node `Buffer` contents are `List Nat` with each byte `< 256`. -/

/-- One lowercase hex digit, as produced by `Buffer.digest('hex')`. -/
def hexDigitLower (n : Nat) : Char :=
  if n < 10 then Char.ofNat (48 + n) else Char.ofNat (87 + n)

/-- Lowercase hex rendering of a byte sequence (two digits per byte),
as `createHash(...).digest('hex')` renders it. -/
def bytesToHexChars (bytes : List Nat) : List Char :=
  bytes.foldr (fun b acc => hexDigitLower (b / 16) :: hexDigitLower (b % 16) :: acc) []

/-- The sixteen characters an uppercase hexadecimal digest may contain. -/
def upperHexAlphabet : List Char := "0123456789ABCDEF".data

/-! ## Base64 (Node `Buffer.from(_, 'base64')` / `buf.toString('base64')`)

Encoding follows RFC 4648 with padding, the alphabet `A–Z a–z 0–9 + /`.
Decoding is forgiving, as Node's is: characters outside the alphabet
(including `=` padding and newlines) are skipped, then complete 4-character
groups decode to 3 bytes, a trailing group of 3 chars to 2 bytes, of 2 chars
to 1 byte, and a lone trailing char is dropped. -/

/-- The base64 alphabet character for a sextet `n < 64`. -/
def b64Char (n : Nat) : Char :=
  if n < 26 then Char.ofNat (65 + n)
  else if n < 52 then Char.ofNat (97 + (n - 26))
  else if n < 62 then Char.ofNat (48 + (n - 52))
  else if n = 62 then '+'
  else '/'

/-- Is `c` in the base64 alphabet (padding `=` excluded)? -/
def isB64Char (c : Char) : Bool :=
  (65 ≤ c.toNat && c.toNat ≤ 90) || (97 ≤ c.toNat && c.toNat ≤ 122) ||
    (48 ≤ c.toNat && c.toNat ≤ 57) || c = '+' || c = '/'

/-- The sextet value of a base64 alphabet character. -/
def b64Val (c : Char) : Nat :=
  if 65 ≤ c.toNat && c.toNat ≤ 90 then c.toNat - 65
  else if 97 ≤ c.toNat && c.toNat ≤ 122 then c.toNat - 97 + 26
  else if 48 ≤ c.toNat && c.toNat ≤ 57 then c.toNat - 48 + 52
  else if c = '+' then 62
  else 63

/-- RFC 4648 base64 encoding of a byte list, with `=` padding. -/
def b64EncodeBytes : List Nat → List Char
  | [] => []
  | [a] => [b64Char (a / 4), b64Char (a % 4 * 16), '=', '=']
  | [a, b] => [b64Char (a / 4), b64Char (a % 4 * 16 + b / 16), b64Char (b % 16 * 4), '=']
  | a :: b :: c :: rest =>
    b64Char (a / 4) :: b64Char (a % 4 * 16 + b / 16) ::
      b64Char (b % 16 * 4 + c / 64) :: b64Char (c % 64) :: b64EncodeBytes rest

/-- Decode a filtered run of base64 alphabet characters, Node-style. -/
def b64DecodeGroups : List Char → List Nat
  | w :: x :: y :: z :: rest =>
    (b64Val w * 4 + b64Val x / 16) ::
      (b64Val x % 16 * 16 + b64Val y / 4) ::
      (b64Val y % 4 * 64 + b64Val z) :: b64DecodeGroups rest
  | [w, x] => [b64Val w * 4 + b64Val x / 16]
  | [w, x, y] => [b64Val w * 4 + b64Val x / 16, b64Val x % 16 * 16 + b64Val y / 4]
  | _ => []

/-- Node's forgiving base64 decode: skip non-alphabet characters, then decode. -/
def b64DecodeChars (cs : List Char) : List Nat :=
  b64DecodeGroups (cs.filter isB64Char)

/-! ## XOR stream cipher (`encryptPrivateKey` / `decryptPrivateKey` core) -/

/-- Byte-wise XOR against the 32-byte secret repeated over the input length:
`out[i] = in[i] ^ key[i % key.length]`, starting at index `i`. -/
def xorKeyFrom (key : List Nat) (i : Nat) : List Nat → List Nat
  | [] => []
  | b :: rest => (b ^^^ key.getD (i % key.length) 0) :: xorKeyFrom key (i + 1) rest

/-- The XOR transform the key manager applies to private key bytes. -/
def xorWithKey (key : List Nat) (bytes : List Nat) : List Nat :=
  xorKeyFrom key 0 bytes

/-! ## SHA-256 (`createHash('sha256')`)

The FIPS 180-4 hash, over byte lists, with 32-bit words as `Nat` reduced
mod `2^32` where overflow matters. -/

/-- Truncate to a 32-bit word. -/
def w32 (n : Nat) : Nat := n % 4294967296

/-- 32-bit right rotation. -/
def rotr32 (n x : Nat) : Nat := w32 (x >>> n ||| x <<< (32 - n))

def shaBigSigma0 (x : Nat) : Nat := rotr32 2 x ^^^ rotr32 13 x ^^^ rotr32 22 x

def shaBigSigma1 (x : Nat) : Nat := rotr32 6 x ^^^ rotr32 11 x ^^^ rotr32 25 x

def shaSmallSigma0 (x : Nat) : Nat := rotr32 7 x ^^^ rotr32 18 x ^^^ (x >>> 3)

def shaSmallSigma1 (x : Nat) : Nat := rotr32 17 x ^^^ rotr32 19 x ^^^ (x >>> 10)

def shaCh (x y z : Nat) : Nat := (x &&& y) ^^^ ((x ^^^ 4294967295) &&& z)

def shaMaj (x y z : Nat) : Nat := (x &&& y) ^^^ (x &&& z) ^^^ (y &&& z)

/-- The 64 SHA-256 round constants of FIPS 180-4 §4.2.2, in decimal. -/
def sha256K : List Nat :=
  [1116352408, 1899447441, 3049323471, 3921009573, 961987163, 1508970993,
   2453635748, 2870763221, 3624381080, 310598401, 607225278, 1426881987,
   1925078388, 2162078206, 2614888103, 3248222580, 3835390401, 4022224774,
   264347078, 604807628, 770255983, 1249150122, 1555081692, 1996064986,
   2554220882, 2821834349, 2952996808, 3210313671, 3336571891, 3584528711,
   113926993, 338241895, 666307205, 773529912, 1294757372, 1396182291,
   1695183700, 1986661051, 2177026350, 2456956037, 2730485921, 2820302411,
   3259730800, 3345764771, 3516065817, 3600352804, 4094571909, 275423344,
   430227734, 506948616, 659060556, 883997877, 958139571, 1322822218,
   1537002063, 1747873779, 1955562222, 2024104815, 2227730452, 2361852424,
   2428436474, 2756734187, 3204031479, 3329325298]

/-- The eight-word working state `(a, b, c, d, e, f, g, h)`. -/
abbrev Hash8 := Nat × Nat × Nat × Nat × Nat × Nat × Nat × Nat

/-- The eight initial hash values of FIPS 180-4 §5.3.3, in decimal. -/
def sha256Init : Hash8 :=
  (1779033703, 3144134277, 1013904242, 2773480762,
   1359893119, 2600822924, 528734635, 1541459225)

/-- Big-endian packing of bytes into 32-bit words. -/
def bytesToWords32 : List Nat → List Nat
  | a :: b :: c :: d :: rest =>
    (a * 16777216 + b * 65536 + c * 256 + d) :: bytesToWords32 rest
  | _ => []

/-- Big-endian bytes of a 32-bit word. -/
def wordBytesBE (w : Nat) : List Nat :=
  [w / 16777216 % 256, w / 65536 % 256, w / 256 % 256, w % 256]

/-- Big-endian 64-bit encoding of the message bit length. -/
def lengthBytesBE (n : Nat) : List Nat :=
  [n / 72057594037927936 % 256, n / 281474976710656 % 256,
   n / 1099511627776 % 256, n / 4294967296 % 256,
   n / 16777216 % 256, n / 65536 % 256, n / 256 % 256, n % 256]

/-- FIPS 180-4 padding: `0x80`, zeros to 56 mod 64, then the bit length. -/
def sha256Pad (msg : List Nat) : List Nat :=
  msg ++ [128] ++ List.replicate ((119 - msg.length % 64) % 64) 0 ++
    lengthBytesBE (msg.length * 8)

/-- Extend the 16 block words to the 64-entry message schedule
(`fuel` counts the 48 remaining entries). -/
def sha256ExtendAux : Nat → List Nat → List Nat
  | 0, w => w
  | fuel + 1, w =>
    let i := w.length
    let next := w32 (shaSmallSigma1 (w.getD (i - 2) 0) + w.getD (i - 7) 0 +
      shaSmallSigma0 (w.getD (i - 15) 0) + w.getD (i - 16) 0)
    sha256ExtendAux fuel (w ++ [next])

def sha256Schedule (block16 : List Nat) : List Nat := sha256ExtendAux 48 block16

/-- One compression round, consuming a `(constant, schedule-word)` pair. -/
def sha256Round (st : Hash8) (kw : Nat × Nat) : Hash8 :=
  let (a, b, c, d, e, f, g, h) := st
  let t1 := w32 (h + shaBigSigma1 e + shaCh e f g + kw.1 + kw.2)
  let t2 := w32 (shaBigSigma0 a + shaMaj a b c)
  (w32 (t1 + t2), a, b, c, w32 (d + t1), e, f, g)

/-- Compress one 64-byte block into the running hash. -/
def sha256Compress (h8 : Hash8) (block : List Nat) : Hash8 :=
  let w := sha256Schedule (bytesToWords32 block)
  let (a, b, c, d, e, f, g, h) := (sha256K.zip w).foldl sha256Round h8
  let (h0, h1, h2, h3, h4, h5, h6, h7) := h8
  (w32 (h0 + a), w32 (h1 + b), w32 (h2 + c), w32 (h3 + d),
   w32 (h4 + e), w32 (h5 + f), w32 (h6 + g), w32 (h7 + h))

/-- Split into 64-byte blocks; the fuel is any bound on the block count. -/
def chunks64Aux : Nat → List Nat → List (List Nat)
  | 0, _ => []
  | _ + 1, [] => []
  | fuel + 1, l => l.take 64 :: chunks64Aux fuel (l.drop 64)

/-- SHA-256 digest (32 bytes) of a byte list. -/
def sha256 (msg : List Nat) : List Nat :=
  let padded := sha256Pad msg
  let fin := (chunks64Aux padded.length padded).foldl sha256Compress sha256Init
  wordBytesBE fin.1 ++ wordBytesBE fin.2.1 ++ wordBytesBE fin.2.2.1 ++
    wordBytesBE fin.2.2.2.1 ++ wordBytesBE fin.2.2.2.2.1 ++
    wordBytesBE fin.2.2.2.2.2.1 ++ wordBytesBE fin.2.2.2.2.2.2.1 ++
    wordBytesBE fin.2.2.2.2.2.2.2

/-! ## JavaScript string primitives used by the key manager -/

/-- ECMAScript WhiteSpace / LineTerminator, as `String.prototype.trim` uses. -/
def jsWhitespace (c : Char) : Bool :=
  (9 ≤ c.toNat && c.toNat ≤ 13) || c.toNat = 32 || c.toNat = 160 ||
    c.toNat = 0x2028 || c.toNat = 0x2029 || c.toNat = 0xFEFF

/-- `s.trim()`: strip JS whitespace from both ends. -/
def jsTrim (l : List Char) : List Char :=
  ((l.dropWhile jsWhitespace).reverse.dropWhile jsWhitespace).reverse

/-- `s.split(' ')`: split on each single space character, keeping empty
fields between consecutive separators (`"a  b" ↦ ["a", "", "b"]`,
`"" ↦ [""]`). -/
def splitOnSpace : List Char → List (List Char)
  | [] => [[]]
  | c :: rest =>
    match splitOnSpace rest with
    | [] => [[]]
    | cur :: parts => if c = ' ' then [] :: cur :: parts else (c :: cur) :: parts

/-- Does `hay` start with `needle`? -/
def startsWithChars : List Char → List Char → Bool
  | [], _ => true
  | _ :: _, [] => false
  | a :: as, b :: bs => a = b && startsWithChars as bs

/-- Does `hay` contain `needle` as a contiguous run? -/
def containsSub (hay needle : List Char) : Bool :=
  match hay with
  | [] => startsWithChars needle []
  | c :: rest => startsWithChars needle (c :: rest) || containsSub rest needle

/-- `s.includes(sub)`. -/
def jsIncludes (s sub : String) : Bool := containsSub s.data sub.data

/-- JS truthiness of an optional string-as-bytes value: `undefined` and the
empty string are falsy. -/
def jsTruthyBytes : Option (List Nat) → Bool
  | none => false
  | some l => !l.isEmpty

/-- JS truthiness of an optional string field. -/
def jsTruthyStr : Option String → Bool
  | none => false
  | some s => !s.isEmpty

/-! ## Key manager (`src/electron/key-manager.ts`)

Plaintext private keys cross the encryption boundary as Node `Buffer`s
(`Buffer.from(s, 'utf8')` / `buf.toString('utf8')`), so they are modelled by
their UTF-8 byte sequences (`List Nat`); the stored ciphertext is the base64
`String` the code keeps in the record.  Fresh uuids and `new Date()` values
are oracle parameters. -/

/-- The errors the key manager throws. -/
inductive KMError
  /-- `'Invalid public key format'` — the spec's `KeyFormatError`. -/
  | invalidPublicKeyFormat
  /-- `'Unable to determine key type'`. -/
  | unableToDetermineKeyType
  /-- `'Encryption key not initialized'`. -/
  | encryptionKeyNotInitialized
  /-- `'Unsupported key type'`. -/
  | unsupportedKeyType

deriving DecidableEq

inductive KeyType
  | rsa
  | ed25519
  | ecdsa

deriving DecidableEq

/-- A stored key record (`SSHKey` in the source); `privateKey` holds the
base64 ciphertext when present. -/
structure SSHKey where
  id : String
  name : String
  type : KeyType
  publicKey : String
  privateKey : Option String
  fingerprint : String
  createdAt : Nat
  encrypted : Bool

deriving DecidableEq

/-- Import payload (`SSHKeyData`); the plaintext private key as UTF-8 bytes. -/
structure SSHKeyData where
  name : String
  publicKey : String
  privateKey : Option (List Nat)

deriving DecidableEq

structure KeyGenerationOptions where
  type : KeyType
  size : Option Nat
  name : String

deriving DecidableEq

/-- What `generateKeyPair` returns to the caller. -/
structure SSHKeyPair where
  publicKey : String
  privateKey : List Nat
  fingerprint : String

deriving DecidableEq

/-- The key manager's in-memory state: the `Map` of records and the
process-wide 32-byte symmetric encryption key (absent before
`initializeEncryptionKey` has run). -/
structure KeyManagerState where
  keys : List (String × SSHKey)
  encryptionKey : Option (List Nat)

deriving DecidableEq

/-- `KeyManager.generateFingerprint`: trim, split on the space character,
fail when fewer than two parts, else base64-decode the second part and
render `SHA256:` + uppercase hex of its SHA-256 digest. -/
def generateFingerprint (publicKey : String) : Except KMError String :=
  let keyParts := splitOnSpace (jsTrim publicKey.data)
  if keyParts.length < 2 then .error .invalidPublicKeyFormat
  else
    let keyData := b64DecodeChars (keyParts.getD 1 [])
    let hash := bytesToHexChars (sha256 keyData)
    .ok ("SHA256:" ++ String.mk (hash.map Char.toUpper))

/-- `KeyManager.determineKeyType`: textual markers in the public key. -/
def determineKeyType (publicKey : String) : Except KMError KeyType :=
  if jsIncludes publicKey "BEGIN RSA PUBLIC KEY" || jsIncludes publicKey "ssh-rsa" then
    .ok .rsa
  else if jsIncludes publicKey "BEGIN ED25519 PUBLIC KEY" ||
      jsIncludes publicKey "ssh-ed25519" then
    .ok .ed25519
  else if jsIncludes publicKey "BEGIN EC PUBLIC KEY" ||
      jsIncludes publicKey "ecdsa-sha2-" then
    .ok .ecdsa
  else .error .unableToDetermineKeyType

/-- `KeyManager.encryptPrivateKey`: XOR against the repeated 32-byte secret,
then base64. -/
def encryptPrivateKey (encKey : Option (List Nat)) (privBytes : List Nat) :
    Except KMError String :=
  match encKey with
  | none => .error .encryptionKeyNotInitialized
  | some k => .ok (String.mk (b64EncodeBytes (xorWithKey k privBytes)))

/-- `KeyManager.decryptPrivateKey`: base64-decode, XOR against the secret. -/
def decryptPrivateKey (encKey : Option (List Nat)) (cipher : String) :
    Except KMError (List Nat) :=
  match encKey with
  | none => .error .encryptionKeyNotInitialized
  | some k => .ok (xorWithKey k (b64DecodeChars cipher.data))

/-- `KeyManager.addKey`: fingerprint, key type, optional encryption of the
supplied private key, then store under the fresh uuid `newId`. -/
def addKey (km : KeyManagerState) (keyData : SSHKeyData) (newId : String)
    (now : Nat) : Except KMError (SSHKey × KeyManagerState) := do
  let fingerprint ← generateFingerprint keyData.publicKey
  let keyType ← determineKeyType keyData.publicKey
  let priv ← if jsTruthyBytes keyData.privateKey then
      (encryptPrivateKey km.encryptionKey (keyData.privateKey.getD [])).map some
    else pure none
  let key : SSHKey :=
    { id := newId, name := keyData.name, type := keyType,
      publicKey := keyData.publicKey, privateKey := priv,
      fingerprint := fingerprint, createdAt := now,
      encrypted := jsTruthyBytes keyData.privateKey }
  pure (key, { km with keys := mapSet km.keys newId key })

/-- `KeyManager.listKeys`: every record with `privateKey` overwritten by
`undefined` — never expose private keys in a listing. -/
def listKeys (km : KeyManagerState) : List SSHKey :=
  (mapValues km.keys).map (fun key => { key with privateKey := none })

/-- `KeyManager.getPrivateKey`: `null` when the id is unknown or the record
has no (truthy) private material; otherwise decrypt. -/
def getPrivateKey (km : KeyManagerState) (keyId : String) :
    Except KMError (Option (List Nat)) :=
  match mapLookup km.keys keyId with
  | none => .ok none
  | some key =>
    if jsTruthyStr key.privateKey then
      (decryptPrivateKey km.encryptionKey (key.privateKey.getD "")).map some
    else .ok none

/-- The shared tail of the three `generateKeyPair` branches: fingerprint the
generated public key, store the pair through `addKey`, return the raw pair.
The external `generateKeyPairSync(...).export(...)` PEM output is the
`(genPub, genPriv)` oracle; the rsa modulus / ecdsa curve options only
parametrize that external call. -/
def generateKeyPairBranch (km : KeyManagerState) (options : KeyGenerationOptions)
    (genPub : String) (genPriv : List Nat) (newId : String) (now : Nat) :
    Except KMError (SSHKeyPair × KeyManagerState) := do
  let fingerprint ← generateFingerprint genPub
  let (_, km') ← addKey km
    { name := options.name, publicKey := genPub, privateKey := some genPriv }
    newId now
  let pair : SSHKeyPair :=
    { publicKey := genPub, privateKey := genPriv, fingerprint := fingerprint }
  pure (pair, km')

/-- `KeyManager.generateKeyPair`: one branch per supported algorithm. -/
def generateKeyPair (km : KeyManagerState) (options : KeyGenerationOptions)
    (genPub : String) (genPriv : List Nat) (newId : String) (now : Nat) :
    Except KMError (SSHKeyPair × KeyManagerState) :=
  match options.type with
  | .rsa => generateKeyPairBranch km options genPub genPriv newId now
  | .ecdsa => generateKeyPairBranch km options genPub genPriv newId now
  | .ed25519 => generateKeyPairBranch km options genPub genPriv newId now

/-! ## SSH session manager (`ssh-manager.ts`)

The registry's map of sessions, the per-session status handlers that
`connect` registers on the ssh2 `Client`, and the synchronous parts of the
operations.  The remote transport's behaviour — when `ready`, `error` and
`close` fire, what a command's stream delivers, what `readdir` returns — is
the event/oracle input. -/

inductive ConnStatus
  | connected
  | disconnected
  | connecting
  | error

deriving DecidableEq

/-- A session record (`SSHConnection`).  `hasClient` / `hasSftp` model the
presence of the opaque `client` / `sftp` handles; the `Client` is assigned
synchronously inside `connect`'s promise executor, so a registered session
always carries one. -/
structure SSHConnection where
  id : String
  host : String
  port : Nat
  username : String
  status : ConnStatus
  hasClient : Bool
  hasSftp : Bool
  connectedAt : Option Nat
  lastActivity : Option Nat

deriving DecidableEq

/-- The manager's state: the session `Map` (never deleted from) and the
per-session reconnect attempt counters. -/
structure SSHManagerState where
  connections : List (String × SSHConnection)
  reconnectAttempts : List (String × Nat)

deriving DecidableEq

/-- The errors the session manager throws. -/
inductive SshError
  /-- `` `Connection ${id} is not available` `` — the spec's `SessionUnavailable`. -/
  | sessionUnavailable (id : String)
  /-- `` `Connection ${id} not found` `` — the spec's `SessionNotFound`. -/
  | connectionNotFound (id : String)
  /-- A transport/channel/stream error surfaced by ssh2 (`TransportError`). -/
  | transportError

deriving DecidableEq

/-- The synchronous part of `SSHManager.connect`: allocate the fresh uuid,
register the session as `connecting` (with its `Client`), emit
`connection:connecting`. -/
def connectStart (st : SSHManagerState) (connectionId host : String) (port : Nat)
    (username : String) (now : Nat) : SSHManagerState :=
  let connection : SSHConnection :=
    { id := connectionId, host := host, port := port, username := username,
      status := .connecting, hasClient := true, hasSftp := false,
      connectedAt := some now, lastActivity := none }
  { st with connections := mapSet st.connections connectionId connection }

/-- Overwrite one session's status (the common body of the three transport
handlers; each also re-`set`s the same object into the map). -/
def setStatus (st : SSHManagerState) (cid : String) (s : ConnStatus) :
    SSHManagerState :=
  { st with connections := mapUpdate st.connections cid (fun c => { c with status := s }) }

/-- The `client.on('ready')` handler: status `connected` unconditionally
(plus a `connectedAt` refresh, elided here). -/
def onReady (st : SSHManagerState) (cid : String) : SSHManagerState :=
  setStatus st cid .connected

/-- The `client.on('error')` handler: status `error` unconditionally. -/
def onError (st : SSHManagerState) (cid : String) : SSHManagerState :=
  setStatus st cid .error

/-- The `client.on('close')` handler (and `disconnect`'s `once('close')`
handler): status `disconnected` unconditionally. -/
def onClose (st : SSHManagerState) (cid : String) : SSHManagerState :=
  setStatus st cid .disconnected

/-- A transport-level event delivered to the handlers `connect` registered. -/
inductive TransportEvent
  | ready
  | errored
  | closed

deriving DecidableEq

def applyTransportEvent (st : SSHManagerState) (cid : String) :
    TransportEvent → SSHManagerState
  | .ready => onReady st cid
  | .errored => onError st cid
  | .closed => onClose st cid

def applyTransportEvents (st : SSHManagerState) (cid : String)
    (evs : List TransportEvent) : SSHManagerState :=
  evs.foldl (fun s e => applyTransportEvent s cid e) st

/-- The status a transport event's handler writes. -/
def eventTarget : TransportEvent → ConnStatus
  | .ready => .connected
  | .errored => .error
  | .closed => .disconnected

def sessionStatus (st : SSHManagerState) (cid : String) : Option ConnStatus :=
  (mapLookup st.connections cid).map (·.status)

/-- The synchronous part of `SSHManager.disconnect`: throw when the id is
unknown (or the session has no client); otherwise request a graceful close —
the status change itself happens in the `close` handler, a `closed`
transport event. -/
def disconnectCheck (st : SSHManagerState) (connectionId : String) :
    Except SshError Unit :=
  match mapLookup st.connections connectionId with
  | none => .error (.connectionNotFound connectionId)
  | some c => if c.hasClient then .ok () else .error (.connectionNotFound connectionId)

/-- What the remote side does with one `exec` call. -/
inductive ExecOutcome
  /-- `client.exec` reported a channel-open error. -/
  | channelFailed
  /-- The stream closed after delivering output; `code` is the remote exit
  code (`undefined` modelled as `none`), `dur` the wall-clock duration and
  `now` the completion time. -/
  | finished (stdout stderr : String) (code : Option Nat) (dur : Nat) (now : Nat)

deriving DecidableEq

structure CommandResult where
  stdout : String
  stderr : String
  exitCode : Nat
  duration : Nat

deriving DecidableEq

/-- JS `code || 0`. -/
def jsOrZero : Option Nat → Nat
  | none => 0
  | some n => n

/-- `SSHManager.executeCommand`: guard that the session exists, has a client
and is `connected`; then one fresh execution channel per call, whose result
is the `outcome` oracle.  Success updates `lastActivity`.  The returned
state is unchanged on every failure path. -/
def executeCommand (st : SSHManagerState) (connectionId : String)
    (outcome : ExecOutcome) : Except SshError CommandResult × SSHManagerState :=
  match mapLookup st.connections connectionId with
  | none => (.error (.sessionUnavailable connectionId), st)
  | some c =>
    if c.hasClient ∧ c.status = .connected then
      match outcome with
      | .channelFailed => (.error .transportError, st)
      | .finished out errOut code dur now =>
        let result : CommandResult :=
          { stdout := out, stderr := errOut, exitCode := jsOrZero code,
            duration := dur }
        let touch := fun (c : SSHConnection) => { c with lastActivity := some now }
        let st' : SSHManagerState :=
          { st with connections := mapUpdate st.connections connectionId touch }
        (.ok result, st')
    else (.error (.sessionUnavailable connectionId), st)

/-- The guard of `SSHManager.getSFTP` (which `listFiles`, `uploadFile` and
`downloadFile` call first): session present, with a client, `connected`. -/
def sftpGuard (st : SSHManagerState) (connectionId : String) :
    Except SshError Unit :=
  match mapLookup st.connections connectionId with
  | none => .error (.sessionUnavailable connectionId)
  | some c =>
    if c.hasClient ∧ c.status = .connected then .ok ()
    else .error (.sessionUnavailable connectionId)

/-- Remote `ATTRS` metadata for one directory entry, as sftp reports it:
`size`, the full `mode` word, `mtime` in epoch seconds. -/
structure RemoteAttrs where
  size : Nat
  mode : Nat
  mtime : Nat

deriving DecidableEq

/-- One entry of `sftp.readdir`'s listing. -/
structure RemoteEntry where
  filename : String
  attrs : RemoteAttrs

deriving DecidableEq

/-- ssh2's `Stats.isDirectory()`: the file-type bits of `mode` equal
`S_IFDIR` (`(mode & 0o170000) === 0o40000`). -/
def attrsIsDirectory (a : RemoteAttrs) : Bool :=
  a.mode &&& 0o170000 == 0o40000

inductive FileKind
  | file
  | directory

deriving DecidableEq

/-- A listing row (`FileInfo`); `modified` in epoch milliseconds
(`new Date(mtime * 1000)`). -/
structure FileInfo where
  name : String
  size : Nat
  type : FileKind
  permissions : String
  modified : Nat

deriving DecidableEq

/-- JS `Number.prototype.toString(8)` for a natural number (`fuel`-driven,
any fuel above the octal digit count gives the rendering). -/
def toOctalAux : Nat → Nat → List Char
  | 0, _ => []
  | fuel + 1, n =>
    if n < 8 then [Char.ofNat (48 + n)]
    else toOctalAux fuel (n / 8) ++ [Char.ofNat (48 + n % 8)]

def toOctalString (n : Nat) : String := String.mk (toOctalAux (n + 1) n)

/-- The per-entry mapping `listFiles` applies to `readdir`'s output. -/
def fileInfoOfEntry (e : RemoteEntry) : FileInfo :=
  { name := e.filename, size := e.attrs.size,
    type := if attrsIsDirectory e.attrs then .directory else .file,
    permissions := toOctalString e.attrs.mode,
    modified := e.attrs.mtime * 1000 }

/-- `SSHManager.listFiles`: the sftp guard, then map `readdir`'s listing
(the `entries` oracle) entry-wise. -/
def listFiles (st : SSHManagerState) (connectionId : String)
    (entries : List RemoteEntry) : Except SshError (List FileInfo) :=
  match sftpGuard st connectionId with
  | .error e => .error e
  | .ok _ => .ok (entries.map fileInfoOfEntry)

/-- `SSHManager.getActiveConnections`: every registered session, in
insertion order. -/
def getActiveConnections (st : SSHManagerState) : List SSHConnection :=
  mapValues st.connections

def getConnection (st : SSHManagerState) (connectionId : String) :
    Option SSHConnection :=
  mapLookup st.connections connectionId

def maxReconnectAttempts : Nat := 3

/-- What one `attemptReconnect` call did. -/
inductive ReconnectOutcome
  /-- The cap was reached: `connection:reconnect-failed` emitted, nothing
  else done. -/
  | failed (attempts : Nat)
  /-- Below the cap: the counter was bumped and a backoff wait of `delayMs`
  milliseconds scheduled; `emitted` is whether `connection:reconnecting`
  fires afterwards (the session is still registered). -/
  | scheduled (delayMs : Nat) (emitted : Bool)

deriving DecidableEq

/-- `SSHManager.attemptReconnect`: read the counter (`get(id) || 0`); at or
above the cap emit `reconnect-failed` and stop; otherwise bump the counter
and wait `Math.pow(2, attempts) * 1000` ms before emitting `reconnecting`. -/
def attemptReconnect (st : SSHManagerState) (connectionId : String) :
    SSHManagerState × ReconnectOutcome :=
  let attempts := (mapLookup st.reconnectAttempts connectionId).getD 0
  if attempts ≥ maxReconnectAttempts then
    (st, .failed attempts)
  else
    let st' : SSHManagerState :=
      { st with reconnectAttempts :=
          mapSet st.reconnectAttempts connectionId (attempts + 1) }
    (st', .scheduled (2 ^ attempts * 1000)
      ((mapLookup st.connections connectionId).isSome))

/-- Everything a caller (or the transport) can do to the manager, for
stating registry-wide invariants. -/
inductive ManagerOp
  | connectOp (cid host : String) (port : Nat) (user : String) (now : Nat)
  | transport (cid : String) (e : TransportEvent)
  | disconnectOp (cid : String)
  | disconnectAllOp
  | execOp (cid : String) (o : ExecOutcome)
  | reconnectOp (cid : String)

/-- The state effect of one operation.  `disconnect` / `disconnectAll`
mutate no session synchronously (their status writes arrive as `closed`
transport events, and `disconnectAll` swallows per-session failures). -/
def applyOp (st : SSHManagerState) : ManagerOp → SSHManagerState
  | .connectOp cid host port user now => connectStart st cid host port user now
  | .transport cid e => applyTransportEvent st cid e
  | .disconnectOp _ => st
  | .disconnectAllOp => st
  | .execOp cid o => (executeCommand st cid o).2
  | .reconnectOp cid => (attemptReconnect st cid).1

def applyOps (st : SSHManagerState) (ops : List ManagerOp) : SSHManagerState :=
  ops.foldl applyOp st

/-! ## Spec-side definitions and concrete fixtures -/

/-- Split on every whitespace character (same shape as `splitOnSpace`, with
the separator class widened to all of JS whitespace). -/
def splitOnWhitespaceRaw : List Char → List (List Char)
  | [] => [[]]
  | c :: rest =>
    match splitOnWhitespaceRaw rest with
    | [] => [[]]
    | cur :: parts =>
      if jsWhitespace c then [] :: cur :: parts else (c :: cur) :: parts

/-- Written to the claim's words, for comparison with the source's
tokenization: the "whitespace-separated fields" of a text — its maximal
nonempty runs of non-whitespace characters. -/
def whitespaceFields (l : List Char) : List (List Char) :=
  (splitOnWhitespaceRaw l).filter (fun f => !f.isEmpty)

/-- What Node's `generateKeyPairSync('ed25519').publicKey.export({type:
'spki', format: 'pem'})` returns: an RFC 7468 `PUBLIC KEY` PEM (the label
never names the algorithm).  The body is the RFC 8410 example ed25519 key;
any generated key gives the same frame with a different base64 body. -/
def nodeSpkiPemEd25519 : String :=
  "-----BEGIN PUBLIC KEY-----\nMCowBQYDK2VwAyEAGb9ECWmEzf6FQbrBZ9w7lshQhqowtrbLDFw4rXAxZuE=\n-----END PUBLIC KEY-----\n"

/-- A key manager state holding one imported record with private material,
reached through `addKey` itself. -/
def w1km : KeyManagerState :=
  match addKey { keys := [], encryptionKey := some (List.range 32) }
      { name := "imported", publicKey := "ssh-ed25519 QUJD",
        privateKey := some [72, 105] } "id1" 7 with
  | .ok p => p.2
  | .error _ => { keys := [], encryptionKey := none }

def w1key : SSHKey := (listKeys w1km).headD ⟨"", "", .rsa, "", none, "", 0, false⟩

def c2key : List Nat := List.range 32

def c2x : List Nat := [72, 105]

def c2cipher : String := ((encryptPrivateKey (some c2key) c2x).toOption).getD ""

def c2record : SSHKey :=
  ⟨"kid", "nm", .ed25519, "ssh-ed25519 QUJD", some c2cipher, "fp", 0, true⟩

def c2km : KeyManagerState := ⟨[("kid", c2record)], some c2key⟩

/-- A registry with one freshly connected (`connecting`) session `s1`. -/
def c4st0 : SSHManagerState := connectStart ⟨[], []⟩ "s1" "h" 22 "u" 0

/-- ... after the transport reported an error. -/
def c4st1 : SSHManagerState := applyTransportEvent c4st0 "s1" .errored

/-- A registry with one errored session, for the execute guard. -/
def c6conn : SSHConnection :=
  ⟨"s1", "h", 22, "u", .error, true, false, some 0, none⟩

def c6st : SSHManagerState := ⟨[("s1", c6conn)], []⟩

/-- A registry with one connected session, for the listing theorem. -/
def c7conn : SSHConnection :=
  ⟨"s1", "h", 22, "u", .connected, true, false, some 0, none⟩

def c7st : SSHManagerState := ⟨[("s1", c7conn)], []⟩

def c7entries : List RemoteEntry :=
  [⟨"docs", ⟨4096, 0o40755, 1700000000⟩⟩, ⟨"a.txt", ⟨12, 0o100644, 1700000001⟩⟩]

/-- `k` successive `attemptReconnect` calls for one session. -/
def reconnectCalls (st : SSHManagerState) (cid : String) : Nat → SSHManagerState
  | 0 => st
  | k + 1 => (attemptReconnect (reconnectCalls st cid k) cid).1

/-- A registry with one disconnected session, for the registry invariant. -/
def c9conn : SSHConnection :=
  ⟨"s1", "h", 22, "u", .disconnected, true, false, some 0, none⟩

def c9st : SSHManagerState := ⟨[("s1", c9conn)], []⟩

def c9ops : List ManagerOp :=
  [.disconnectOp "s1", .transport "s1" .closed, .reconnectOp "s1",
   .connectOp "s2" "h2" 2222 "root" 5, .disconnectAllOp,
   .execOp "s1" (.finished "" "" none 0 0)]

theorem mapLookup_set_self {α : Type} (m : List (String × α)) (k : String) (v : α) :
    mapLookup (mapSet m k v) k = some v := by
  induction m with
  | nil => simp [mapSet, mapLookup]
  | cons hd tl ih =>
    obtain ⟨k', v'⟩ := hd
    by_cases h : k' = k <;> simp [mapSet, mapLookup, h, ih]

theorem mapLookup_set_isSome {α : Type} (m : List (String × α)) (k k' : String)
    (v : α) (h : (mapLookup m k').isSome) :
    (mapLookup (mapSet m k v) k').isSome := by
  induction m with
  | nil => simp [mapLookup] at h
  | cons hd tl ih =>
    obtain ⟨k₀, v₀⟩ := hd
    by_cases hk : k₀ = k
    · subst hk
      by_cases hk' : k₀ = k'
      · simp [mapSet, mapLookup, hk']
      · simp [mapSet, mapLookup, hk'] at h ⊢
        exact h
    · by_cases hk' : k₀ = k'
      · subst hk'
        simp [mapSet, mapLookup, hk]
      · simp [mapSet, mapLookup, hk, hk'] at h ⊢
        exact ih h

theorem mapLookup_update_isSome {α : Type} (m : List (String × α)) (k k' : String)
    (f : α → α) (h : (mapLookup m k').isSome) :
    (mapLookup (mapUpdate m k f) k').isSome := by
  induction m with
  | nil => simp [mapLookup] at h
  | cons hd tl ih =>
    obtain ⟨k₀, v₀⟩ := hd
    by_cases hk : k₀ = k
    · subst hk
      by_cases hk' : k₀ = k'
      · simp [mapUpdate, mapLookup, hk']
      · simp [mapUpdate, mapLookup, hk'] at h ⊢
        exact h
    · by_cases hk' : k₀ = k'
      · subst hk'
        simp [mapUpdate, mapLookup, hk]
      · simp [mapUpdate, mapLookup, hk, hk'] at h ⊢
        exact ih h

theorem mapLookup_update_self {α : Type} (m : List (String × α)) (k : String)
    (f : α → α) :
    mapLookup (mapUpdate m k f) k = (mapLookup m k).map f := by
  induction m with
  | nil => simp [mapUpdate, mapLookup]
  | cons hd tl ih =>
    obtain ⟨k₀, v₀⟩ := hd
    by_cases hk : k₀ = k <;> simp [mapUpdate, mapLookup, hk, ih]

theorem mapLookup_mem_values {α : Type} (m : List (String × α)) (k : String)
    (v : α) (h : mapLookup m k = some v) : v ∈ mapValues m := by
  induction m with
  | nil => simp [mapLookup] at h
  | cons hd tl ih =>
    obtain ⟨k₀, v₀⟩ := hd
    by_cases hk : k₀ = k
    · simp [mapLookup, hk] at h
      simp [mapValues, h]
    · simp [mapLookup, hk] at h
      simp [mapValues]
      exact Or.inr (by simpa [mapValues] using ih h)

theorem bytesToHexChars_length (bytes : List Nat) :
    (bytesToHexChars bytes).length = 2 * bytes.length := by
  induction bytes with
  | nil => simp [bytesToHexChars]
  | cons b tl ih =>
    simp [bytesToHexChars] at ih ⊢
    omega

theorem toUpper_hexDigitLower_mem (n : Nat) (h : n < 16) :
    Char.toUpper (hexDigitLower n) ∈ upperHexAlphabet := by
  have : ∀ m : Fin 16, Char.toUpper (hexDigitLower m.val) ∈ upperHexAlphabet := by
    decide
  exact this ⟨n, h⟩

theorem bytesToHexChars_toUpper_mem (bytes : List Nat)
    (hb : ∀ b ∈ bytes, b < 256) (c : Char)
    (h : c ∈ (bytesToHexChars bytes).map Char.toUpper) :
    c ∈ upperHexAlphabet := by
  induction bytes with
  | nil => simp [bytesToHexChars] at h
  | cons b tl ih =>
    have hb0 : b < 256 := hb b (by simp)
    simp only [bytesToHexChars, List.foldr_cons, List.map_cons, List.mem_cons] at h
    rcases h with h | h | h
    · subst h
      exact toUpper_hexDigitLower_mem _ (by omega)
    · subst h
      exact toUpper_hexDigitLower_mem _ (by omega)
    · exact ih (fun x hx => hb x (by simp [hx])) (by simpa [bytesToHexChars] using h)

theorem isB64Char_b64Char (n : Nat) (h : n < 64) : isB64Char (b64Char n) = true := by
  have : ∀ m : Fin 64, isB64Char (b64Char m.val) = true := by decide
  exact this ⟨n, h⟩

theorem b64Val_b64Char (n : Nat) (h : n < 64) : b64Val (b64Char n) = n := by
  have : ∀ m : Fin 64, b64Val (b64Char m.val) = m.val := by decide
  exact this ⟨n, h⟩

theorem b64EncodeBytes_eq_nil_iff (l : List Nat) :
    b64EncodeBytes l = [] ↔ l = [] := by
  match l with
  | [] => simp [b64EncodeBytes]
  | [a] => simp [b64EncodeBytes]
  | [a, b] => simp [b64EncodeBytes]
  | a :: b :: c :: rest => simp [b64EncodeBytes]

theorem isB64Char_pad : ¬ isB64Char '=' = true := by decide

/-- Base64 round trip: decoding an encoding recovers the bytes. -/
theorem b64Decode_b64Encode (l : List Nat) (hl : ∀ b ∈ l, b < 256) :
    b64DecodeChars (b64EncodeBytes l) = l := by
  match l with
  | [] => rfl
  | [a] =>
    have ha : a < 256 := hl a (by simp)
    have h1 : a / 4 < 64 := by omega
    have h2 : a % 4 * 16 < 64 := by omega
    simp only [b64EncodeBytes, b64DecodeChars,
      List.filter_cons_of_pos (isB64Char_b64Char _ h1),
      List.filter_cons_of_pos (isB64Char_b64Char _ h2),
      List.filter_cons_of_neg isB64Char_pad, List.filter_nil,
      b64DecodeGroups, b64Val_b64Char _ h1, b64Val_b64Char _ h2]
    have : a / 4 * 4 + a % 4 * 16 / 16 = a := by omega
    rw [this]
  | [a, b] =>
    have ha : a < 256 := hl a (by simp)
    have hb : b < 256 := hl b (by simp)
    have h1 : a / 4 < 64 := by omega
    have h2 : a % 4 * 16 + b / 16 < 64 := by omega
    have h3 : b % 16 * 4 < 64 := by omega
    simp only [b64EncodeBytes, b64DecodeChars,
      List.filter_cons_of_pos (isB64Char_b64Char _ h1),
      List.filter_cons_of_pos (isB64Char_b64Char _ h2),
      List.filter_cons_of_pos (isB64Char_b64Char _ h3),
      List.filter_cons_of_neg isB64Char_pad, List.filter_nil,
      b64DecodeGroups, b64Val_b64Char _ h1, b64Val_b64Char _ h2, b64Val_b64Char _ h3]
    have e1 : a / 4 * 4 + (a % 4 * 16 + b / 16) / 16 = a := by omega
    have e2 : (a % 4 * 16 + b / 16) % 16 * 16 + b % 16 * 4 / 4 = b := by omega
    rw [e1, e2]
  | a :: b :: c :: rest =>
    have ha : a < 256 := hl a (by simp)
    have hb : b < 256 := hl b (by simp)
    have hc : c < 256 := hl c (by simp)
    have h1 : a / 4 < 64 := by omega
    have h2 : a % 4 * 16 + b / 16 < 64 := by omega
    have h3 : b % 16 * 4 + c / 64 < 64 := by omega
    have h4 : c % 64 < 64 := by omega
    have ih := b64Decode_b64Encode rest (fun x hx => hl x (by simp [hx]))
    simp only [b64DecodeChars] at ih
    simp only [b64EncodeBytes, b64DecodeChars,
      List.filter_cons_of_pos (isB64Char_b64Char _ h1),
      List.filter_cons_of_pos (isB64Char_b64Char _ h2),
      List.filter_cons_of_pos (isB64Char_b64Char _ h3),
      List.filter_cons_of_pos (isB64Char_b64Char _ h4),
      b64DecodeGroups, b64Val_b64Char _ h1, b64Val_b64Char _ h2,
      b64Val_b64Char _ h3, b64Val_b64Char _ h4, ih]
    have e1 : a / 4 * 4 + (a % 4 * 16 + b / 16) / 16 = a := by omega
    have e2 : (a % 4 * 16 + b / 16) % 16 * 16 + (b % 16 * 4 + c / 64) / 4 = b := by omega
    have e3 : (b % 16 * 4 + c / 64) % 4 * 64 + c % 64 = c := by omega
    rw [e1, e2, e3]

theorem xorKeyFrom_involutive (key : List Nat) (i : Nat) (l : List Nat) :
    xorKeyFrom key i (xorKeyFrom key i l) = l := by
  induction l generalizing i with
  | nil => simp [xorKeyFrom]
  | cons b tl ih =>
    simp [xorKeyFrom, ih, Nat.xor_cancel_right]

theorem xorWithKey_involutive (key : List Nat) (l : List Nat) :
    xorWithKey key (xorWithKey key l) = l :=
  xorKeyFrom_involutive key 0 l

theorem xorKeyFrom_lt_256 (key : List Nat) (hk : ∀ b ∈ key, b < 256) (i : Nat)
    (l : List Nat) (hl : ∀ b ∈ l, b < 256) :
    ∀ b ∈ xorKeyFrom key i l, b < 256 := by
  induction l generalizing i with
  | nil => simp [xorKeyFrom]
  | cons b tl ih =>
    intro x hx
    simp only [xorKeyFrom, List.mem_cons] at hx
    rcases hx with hx | hx
    · subst hx
      have hb : b < 256 := hl b (by simp)
      have hkey : key.getD (i % key.length) 0 < 256 := by
        rcases Nat.lt_or_ge (i % key.length) key.length with hlt | hge
        · rw [List.getD_eq_getElem key 0 hlt]
          exact hk _ (List.getElem_mem hlt)
        · rw [List.getD_eq_default key 0 hge]
          omega
      calc b ^^^ key.getD (i % key.length) 0 < 2 ^ 8 :=
            Nat.xor_lt_two_pow (by omega) (by omega)
        _ = 256 := by norm_num
    · exact ih (i + 1) (fun x hx => hl x (by simp [hx])) x hx

theorem wordBytesBE_lt_256 (w : Nat) : ∀ b ∈ wordBytesBE w, b < 256 := by
  intro b hb
  simp [wordBytesBE] at hb
  rcases hb with h | h | h | h <;> omega

/-- A SHA-256 digest is 32 bytes long. -/
theorem sha256_length (msg : List Nat) : (sha256 msg).length = 32 := by
  simp [sha256, wordBytesBE]

/-- Every byte of a SHA-256 digest is below 256. -/
theorem sha256_lt_256 (msg : List Nat) : ∀ b ∈ sha256 msg, b < 256 := by
  intro b hb
  simp only [sha256, List.mem_append] at hb
  rcases hb with ((((((h | h) | h) | h) | h) | h) | h) | h <;>
    exact wordBytesBE_lt_256 _ _ h

/-! ## Shared lemmas about the session manager -/

theorem attemptReconnect_connections (st : SSHManagerState) (cid : String) :
    ((attemptReconnect st cid).1).connections = st.connections := by
  unfold attemptReconnect
  by_cases h : (mapLookup st.reconnectAttempts cid).getD 0 ≥ maxReconnectAttempts <;>
    simp [h]

theorem executeCommand_lookup_isSome (st : SSHManagerState) (cid cid' : String)
    (o : ExecOutcome) (h : (mapLookup st.connections cid').isSome) :
    (mapLookup ((executeCommand st cid o).2).connections cid').isSome := by
  unfold executeCommand
  cases hm : mapLookup st.connections cid with
  | none => exact h
  | some c =>
    by_cases hg : c.hasClient ∧ c.status = ConnStatus.connected
    · simp only [hg, if_pos]
      cases o with
      | channelFailed => exact h
      | finished out errOut code dur now =>
        exact mapLookup_update_isSome _ _ _ _ h
    · simp only [hg, if_neg, not_false_iff]
      exact h

theorem applyTransportEvent_lookup_isSome (st : SSHManagerState)
    (cid cid' : String) (e : TransportEvent)
    (h : (mapLookup st.connections cid').isSome) :
    (mapLookup ((applyTransportEvent st cid e).connections) cid').isSome := by
  cases e <;>
    exact mapLookup_update_isSome _ _ _ _ h

theorem applyOp_lookup_isSome (st : SSHManagerState) (op : ManagerOp)
    (cid' : String) (h : (mapLookup st.connections cid').isSome) :
    (mapLookup ((applyOp st op).connections) cid').isSome := by
  cases op with
  | connectOp cid host port user now => exact mapLookup_set_isSome _ _ _ _ h
  | transport cid e => exact applyTransportEvent_lookup_isSome st cid cid' e h
  | disconnectOp cid => exact h
  | disconnectAllOp => exact h
  | execOp cid o => exact executeCommand_lookup_isSome st cid cid' o h
  | reconnectOp cid => rw [applyOp, attemptReconnect_connections]; exact h

theorem applyOps_lookup_isSome (st : SSHManagerState) (ops : List ManagerOp)
    (cid' : String) (h : (mapLookup st.connections cid').isSome) :
    (mapLookup ((applyOps st ops).connections) cid').isSome := by
  induction ops generalizing st with
  | nil => exact h
  | cons op rest ih =>
    exact ih (applyOp st op) (applyOp_lookup_isSome st op cid' h)

/-! ## C1 -/

/-- C1: in every key manager state — in particular immediately after an
`addKey` that supplied private key material — every record `listKeys`
returns has its `privateKey` field absent; no listing response carries
private material, plaintext or ciphertext. -/
theorem C1_listKeys_redacts_private_material (km : KeyManagerState) (k : SSHKey)
    (h : k ∈ listKeys km) : k.privateKey = none := by
  simp only [listKeys, List.mem_map] at h
  obtain ⟨k', _, rfl⟩ := h
  rfl

set_option maxRecDepth 20000 in
/-- Witness for C1, on the state `addKey` itself produced from an import
that carried private key material. -/
theorem C1_witness : w1key.privateKey = none :=
  C1_listKeys_redacts_private_material w1km w1key (by decide)

/-! ## C2 -/

/-- C2: decrypting an encryption is the identity — for every plaintext (as
UTF-8 bytes) and 32-byte key, `decryptPrivateKey` undoes
`encryptPrivateKey`; hence `getPrivateKey` on a record storing that
ciphertext returns the original plaintext. -/
theorem C2_decrypt_encrypt_roundtrip (key x : List Nat) (km : KeyManagerState)
    (kid : String) (r : SSHKey) (c : String)
    (hkm : km.encryptionKey = some key) (_hlen32 : key.length = 32)
    (hkb : ∀ b ∈ key, b < 256) (hxb : ∀ b ∈ x, b < 256) (hx : x ≠ [])
    (henc : encryptPrivateKey (some key) x = .ok c)
    (hr : mapLookup km.keys kid = some r) (hpriv : r.privateKey = some c) :
    decryptPrivateKey (some key) c = .ok x ∧
      getPrivateKey km kid = .ok (some x) := by
  have hc : c = String.mk (b64EncodeBytes (xorWithKey key x)) := by
    simpa [encryptPrivateKey] using henc.symm
  have hxor : ∀ b ∈ xorWithKey key x, b < 256 :=
    xorKeyFrom_lt_256 key hkb 0 x hxb
  have hdec : decryptPrivateKey (some key) c = .ok x := by
    rw [hc]
    simp only [decryptPrivateKey, Except.ok.injEq]
    show xorWithKey key (b64DecodeChars (b64EncodeBytes (xorWithKey key x))) = x
    rw [b64Decode_b64Encode _ hxor, xorWithKey_involutive]
  refine ⟨hdec, ?_⟩
  have hne : c.isEmpty = false := by
    obtain ⟨y, ys, rfl⟩ : ∃ y ys, x = y :: ys := by
      cases x with
      | nil => exact absurd rfl hx
      | cons y ys => exact ⟨y, ys, rfl⟩
    have : ∃ ch rest, b64EncodeBytes (xorWithKey key (y :: ys)) = ch :: rest := by
      show ∃ ch rest, b64EncodeBytes (xorKeyFrom key 0 (y :: ys)) = ch :: rest
      simp only [xorKeyFrom]
      cases hz : xorKeyFrom key 1 ys with
      | nil => exact ⟨_, _, rfl⟩
      | cons z zs =>
        cases zs with
        | nil => exact ⟨_, _, rfl⟩
        | cons w ws => exact ⟨_, _, rfl⟩
    obtain ⟨ch, rest, hch⟩ := this
    rw [hc, hch]
    rw [Bool.eq_false_iff]
    intro habs
    have h2 : String.mk (ch :: rest) = "" := (String.isEmpty_iff _).mp habs
    simpa using congrArg String.data h2
  simp only [getPrivateKey, hr, jsTruthyStr, hpriv, hne, Bool.not_false,
    if_pos, Option.getD_some, hkm, hdec, Except.map]

/-- Witness for C2 at a concrete 32-byte key, plaintext and stored record. -/
theorem C2_witness :
    decryptPrivateKey (some c2key) c2cipher = .ok c2x ∧
      getPrivateKey c2km "kid" = .ok (some c2x) :=
  C2_decrypt_encrypt_roundtrip c2key c2x c2km "kid" c2record c2cipher rfl
    (by decide) (by decide) (by decide) (by decide) rfl rfl rfl

/-! ## C10 -/

/-- C10: `getPrivateKey` answers `null` without raising when the id is
unknown or the record holds no private material; an error can only arise
from a record that does hold private material whose decryption failed. -/
theorem C10_getPrivateKey_null_paths (km : KeyManagerState) (kid : String) :
    (mapLookup km.keys kid = none → getPrivateKey km kid = .ok none) ∧
    (∀ k, mapLookup km.keys kid = some k → k.privateKey = none →
      getPrivateKey km kid = .ok none) ∧
    (∀ e, getPrivateKey km kid = .error e →
      ∃ k c, mapLookup km.keys kid = some k ∧ k.privateKey = some c ∧
        decryptPrivateKey km.encryptionKey c = .error e) := by
  refine ⟨?_, ?_, ?_⟩
  · intro h
    simp [getPrivateKey, h]
  · intro k hk hp
    simp [getPrivateKey, hk, jsTruthyStr, hp]
  · intro e he
    cases hk : mapLookup km.keys kid with
    | none => simp [getPrivateKey, hk] at he
    | some k =>
      cases hp : k.privateKey with
      | none => simp [getPrivateKey, hk, jsTruthyStr, hp] at he
      | some c =>
        by_cases hne : c.isEmpty = true
        · simp [getPrivateKey, hk, jsTruthyStr, hp, hne] at he
        · have hne' : c.isEmpty = false := by simpa using hne
          refine ⟨k, c, rfl, hp, ?_⟩
          simp only [getPrivateKey, hk, jsTruthyStr, hp, hne', Bool.not_false,
            if_pos, Option.getD_some] at he
          cases hd : decryptPrivateKey km.encryptionKey c with
          | error e' =>
            rw [hd] at he
            simp only [Except.map, Except.error.injEq] at he
            rw [he]
          | ok v =>
            rw [hd] at he
            simp [Except.map] at he

/-- Witness for C10: the unknown-id and no-private-material paths. -/
theorem C10_witness :
    getPrivateKey (⟨[], none⟩ : KeyManagerState) "z" = .ok none :=
  (C10_getPrivateKey_null_paths ⟨[], none⟩ "z").1 rfl

/-! ## C5 -/

/-- C5 counterexample: `"a\tb"` has exactly two whitespace-separated fields
(`a` and `b`, separated by a tab), yet `generateFingerprint` fails with the
key-format error instead of returning a digest — the code splits on the
space character only, not on whitespace. -/
theorem C5_counterexample :
    (whitespaceFields "a\tb".data).length = 2 ∧
    generateFingerprint "a\tb" = .error .invalidPublicKeyFormat := by
  exact ⟨by decide, by decide⟩

/-- C5 (amended): the fingerprint calculator is pure and deterministic; for
every input whose trimmed text yields at least two fields when split on the
space character (not general whitespace), it returns `SHA256:` followed by
the uppercase hexadecimal SHA-256 digest (64 characters, all uppercase hex)
of the base64-decoding of the second such field, and for every input with
fewer than two space-separated fields it fails with the key-format error. -/
theorem C5_amended_fingerprint_spec (s : String) :
    (2 ≤ (splitOnSpace (jsTrim s.data)).length →
      generateFingerprint s = .ok ("SHA256:" ++ String.mk
        ((bytesToHexChars (sha256 (b64DecodeChars
          ((splitOnSpace (jsTrim s.data)).getD 1 [])))).map Char.toUpper)) ∧
      ((bytesToHexChars (sha256 (b64DecodeChars
          ((splitOnSpace (jsTrim s.data)).getD 1 [])))).map Char.toUpper).length = 64 ∧
      (∀ ch ∈ (bytesToHexChars (sha256 (b64DecodeChars
          ((splitOnSpace (jsTrim s.data)).getD 1 [])))).map Char.toUpper,
        ch ∈ upperHexAlphabet)) ∧
    ((splitOnSpace (jsTrim s.data)).length < 2 →
      generateFingerprint s = .error .invalidPublicKeyFormat) := by
  constructor
  · intro h2
    refine ⟨?_, ?_, ?_⟩
    · simp only [generateFingerprint]
      rw [if_neg (by omega)]
    · rw [List.length_map, bytesToHexChars_length, sha256_length]
    · intro ch hch
      exact bytesToHexChars_toUpper_mem _ (sha256_lt_256 _) ch hch
  · intro h2
    simp only [generateFingerprint]
    rw [if_pos h2]

/-- Witness for C5 at a well-formed OpenSSH-style input. -/
theorem C5_witness :
    2 ≤ (splitOnSpace (jsTrim "ssh-rsa QUJD".data)).length ∧
    generateFingerprint "ssh-rsa QUJD" = .ok ("SHA256:" ++ String.mk
      ((bytesToHexChars (sha256 (b64DecodeChars
        ((splitOnSpace (jsTrim "ssh-rsa QUJD".data)).getD 1 [])))).map Char.toUpper)) :=
  ⟨by decide, ((C5_amended_fingerprint_spec "ssh-rsa QUJD").1 (by decide)).1⟩

/-! ## C3 -/

/-- C3 (code bug): `keysGenerate({type: 'ed25519', name: 'n'})` never
succeeds, let alone stores a retrievable record: the generated public key
is an SPKI PEM whose label is `BEGIN PUBLIC KEY`, so `addKey`'s
`determineKeyType` finds none of its markers (`BEGIN ED25519 PUBLIC KEY`,
`ssh-ed25519`, ...) and throws `Unable to determine key type`, which
`generateKeyPair` rethrows. -/
theorem C3_generate_ed25519_always_throws :
    generateKeyPair { keys := [], encryptionKey := some (List.range 32) }
      { type := .ed25519, size := none, name := "n" }
      nodeSpkiPemEd25519 [1, 2, 3] "id0" 0 =
      .error .unableToDetermineKeyType ∧
    determineKeyType nodeSpkiPemEd25519 = .error .unableToDetermineKeyType ∧
    listKeys { keys := [], encryptionKey := some (List.range 32) } = [] := by
  exact ⟨by decide, by decide, rfl⟩

/-! ## C4 -/

/-- C4 counterexample: a session whose status is `error` is moved to
`disconnected` by a later transport `close` event (ssh2 fires `close` after
`error`), because the `close` handler writes `disconnected` unconditionally
— `error` is not terminal. -/
theorem C4_counterexample :
    sessionStatus c4st1 "s1" = some .error ∧
    sessionStatus (applyTransportEvent c4st1 "s1" .closed) "s1" =
      some .disconnected ∧
    ConnStatus.disconnected ≠ ConnStatus.error := by
  exact ⟨by decide, by decide, by decide⟩

theorem applyTransportEvents_lookup_isSome (st : SSHManagerState) (cid cid' : String)
    (evs : List TransportEvent) (h : (mapLookup st.connections cid').isSome) :
    (mapLookup (applyTransportEvents st cid evs).connections cid').isSome := by
  induction evs generalizing st with
  | nil => exact h
  | cons e rest ih =>
    exact ih (applyTransportEvent st cid e)
      (applyTransportEvent_lookup_isSome st cid cid' e h)

/-- C4 (amended): each transport handler writes its status unconditionally
(`ready ↦ connected`, `error ↦ error`, `close ↦ disconnected`), so a
registered session's status after any event sequence is determined by the
last event.  The claimed transitions `connecting → connected`,
`connecting → error` and `connected → disconnected` all hold, but neither
`error` nor `disconnected` is terminal against later transport events: in
particular a `close` delivered after an error (as ssh2 does, and as
`disconnect`'s close handler does) moves an errored session to
`disconnected`. -/
theorem C4_amended_last_event_determines_status (st : SSHManagerState)
    (cid : String) (evs : List TransportEvent) (e : TransportEvent)
    (h : (mapLookup st.connections cid).isSome) :
    sessionStatus (applyTransportEvents st cid (evs ++ [e])) cid =
      some (eventTarget e) := by
  have hpre : (mapLookup (applyTransportEvents st cid evs).connections cid).isSome :=
    applyTransportEvents_lookup_isSome st cid cid evs h
  have happ : applyTransportEvents st cid (evs ++ [e]) =
      applyTransportEvent (applyTransportEvents st cid evs) cid e := by
    simp [applyTransportEvents, List.foldl_append]
  rw [happ]
  obtain ⟨c, hc⟩ := Option.isSome_iff_exists.mp hpre
  cases e <;>
    simp [applyTransportEvent, onReady, onError, onClose, sessionStatus,
      setStatus, mapLookup_update_self, hc, eventTarget]

/-- Witness for C4's amended statement on a concrete session and trace. -/
theorem C4_witness :
    sessionStatus (applyTransportEvents c4st0 "s1"
      ([TransportEvent.ready] ++ [TransportEvent.closed])) "s1" =
      some (eventTarget TransportEvent.closed) :=
  C4_amended_last_event_determines_status c4st0 "s1" [TransportEvent.ready]
    TransportEvent.closed (by decide)

/-! ## C6 -/

/-- C6: `executeCommand` fails with the session-unavailable error — for
every channel outcome alike (so before any channel is opened or I/O done)
and with the manager state returned unchanged — whenever the id is unknown
or the session's status is `connecting`, `error` or `disconnected`; and a
successful execution implies the session exists and is `connected`. -/
theorem C6_execute_requires_connected (st : SSHManagerState) (cid : String) :
    (∀ o, (mapLookup st.connections cid = none ∨
        ∃ c, mapLookup st.connections cid = some c ∧
          (c.status = .connecting ∨ c.status = .error ∨ c.status = .disconnected)) →
      executeCommand st cid o = (.error (.sessionUnavailable cid), st)) ∧
    (∀ o r st', executeCommand st cid o = (.ok r, st') →
      ∃ c, mapLookup st.connections cid = some c ∧ c.status = .connected) := by
  constructor
  · intro o h
    rcases h with h | ⟨c, hc, hs⟩
    · simp [executeCommand, h]
    · have hne : ¬ (c.hasClient ∧ c.status = ConnStatus.connected) := by
        rintro ⟨-, hconn⟩
        rcases hs with hs | hs | hs <;> rw [hs] at hconn <;> cases hconn
      simp [executeCommand, hc, hne]
  · intro o r st' h
    cases hm : mapLookup st.connections cid with
    | none => simp [executeCommand, hm] at h
    | some c =>
      by_cases hg : c.hasClient ∧ c.status = ConnStatus.connected
      · exact ⟨c, rfl, hg.2⟩
      · simp [executeCommand, hm, hg] at h

/-- Witness for C6: executing on an errored session fails unavailable with
the state unchanged. -/
theorem C6_witness :
    executeCommand c6st "s1" (ExecOutcome.finished "out" "err" none 1 2) =
      (.error (.sessionUnavailable "s1"), c6st) :=
  (C6_execute_requires_connected c6st "s1").1
    (ExecOutcome.finished "out" "err" none 1 2)
    (Or.inr ⟨c6conn, by decide, Or.inr (Or.inl rfl)⟩)

/-! ## C7 -/

/-- C7: on a connected session, `listFiles` returns one `FileInfo` per
remote entry, in order, whose kind is `directory` exactly when the remote
attrs' mode has the directory file-type bits, whose permission string is
the octal rendering of the remote mode, and whose modification time is the
remote's epoch-seconds value times 1000 milliseconds. -/
theorem C7_listFiles_entrywise (st : SSHManagerState) (cid : String)
    (entries : List RemoteEntry) (c : SSHConnection)
    (h1 : mapLookup st.connections cid = some c) (h2 : c.hasClient = true)
    (h3 : c.status = .connected) :
    ∃ l, listFiles st cid entries = .ok l ∧
      List.Forall₂ (fun (e : RemoteEntry) (f : FileInfo) =>
        f.name = e.filename ∧ f.size = e.attrs.size ∧
        (f.type = .directory ↔ attrsIsDirectory e.attrs = true) ∧
        f.permissions = toOctalString e.attrs.mode ∧
        f.modified = e.attrs.mtime * 1000) entries l := by
  refine ⟨entries.map fileInfoOfEntry, ?_, ?_⟩
  · simp [listFiles, sftpGuard, h1, h2, h3]
  · clear h1
    induction entries with
    | nil => exact List.Forall₂.nil
    | cons e rest ih =>
      refine List.Forall₂.cons ?_ ih
      refine ⟨rfl, rfl, ?_, rfl, rfl⟩
      by_cases hd : attrsIsDirectory e.attrs = true <;>
        simp [fileInfoOfEntry, hd]

/-- Witness for C7 on a connected session listing one directory and one
regular file. -/
theorem C7_witness :
    ∃ l, listFiles c7st "s1" c7entries = .ok l ∧
      List.Forall₂ (fun (e : RemoteEntry) (f : FileInfo) =>
        f.name = e.filename ∧ f.size = e.attrs.size ∧
        (f.type = .directory ↔ attrsIsDirectory e.attrs = true) ∧
        f.permissions = toOctalString e.attrs.mode ∧
        f.modified = e.attrs.mtime * 1000) c7entries l :=
  C7_listFiles_entrywise c7st "s1" c7entries c7conn (by decide) (by decide)
    (by decide)

/-! ## C8 -/

theorem attemptReconnect_spec (st : SSHManagerState) (cid : String) :
    ((mapLookup st.reconnectAttempts cid).getD 0 ≥ maxReconnectAttempts →
      attemptReconnect st cid =
        (st, .failed ((mapLookup st.reconnectAttempts cid).getD 0))) ∧
    ((mapLookup st.reconnectAttempts cid).getD 0 < maxReconnectAttempts →
      attemptReconnect st cid =
        (⟨st.connections,
          mapSet st.reconnectAttempts cid
            ((mapLookup st.reconnectAttempts cid).getD 0 + 1)⟩,
         .scheduled (2 ^ ((mapLookup st.reconnectAttempts cid).getD 0) * 1000)
           ((mapLookup st.connections cid).isSome))) := by
  constructor
  · intro h
    simp [attemptReconnect, h]
  · intro h
    have hne : ¬ ((mapLookup st.reconnectAttempts cid).getD 0 ≥ maxReconnectAttempts) := by
      omega
    simp [attemptReconnect, hne]

theorem reconnectCalls_connections (st : SSHManagerState) (cid : String) :
    ∀ k, (reconnectCalls st cid k).connections = st.connections
  | 0 => rfl
  | k + 1 => by
    rw [reconnectCalls, attemptReconnect_connections,
      reconnectCalls_connections st cid k]

theorem reconnectCalls_counter (st : SSHManagerState) (cid : String)
    (hz : mapLookup st.reconnectAttempts cid = none) (k : Nat) :
    (mapLookup (reconnectCalls st cid k).reconnectAttempts cid).getD 0 =
      min k maxReconnectAttempts := by
  induction k with
  | zero => simp [reconnectCalls, hz]
  | succ k ih =>
    show (mapLookup ((attemptReconnect (reconnectCalls st cid k) cid).1).reconnectAttempts
      cid).getD 0 = _
    by_cases h3 : min k maxReconnectAttempts ≥ maxReconnectAttempts
    · rw [(attemptReconnect_spec _ _).1 (by rw [ih]; exact h3)]
      rw [ih]
      simp only [maxReconnectAttempts] at h3 ⊢
      omega
    · rw [(attemptReconnect_spec _ _).2 (by rw [ih]; omega)]
      simp only [mapLookup_set_self, Option.getD_some, ih]
      simp only [maxReconnectAttempts] at h3 ⊢
      omega

/-- C8: starting from no recorded attempts, the `n`-th `attemptReconnect`
call for a session (`n` from 0) finds the counter at `n`; below the cap of
`maxReconnectAttempts = 3` it schedules a wait of exactly `2^n` seconds
(`2^n * 1000` ms) before emitting `reconnecting`, and once the counter has
reached the cap it emits `reconnect-failed` and changes nothing — every
further call for that session short-circuits the same way. -/
theorem C8_reconnect_backoff_and_cap (st : SSHManagerState) (cid : String)
    (hz : mapLookup st.reconnectAttempts cid = none) (k : Nat) :
    ((mapLookup (reconnectCalls st cid k).reconnectAttempts cid).getD 0 =
      min k maxReconnectAttempts) ∧
    (k < maxReconnectAttempts →
      (attemptReconnect (reconnectCalls st cid k) cid).2 =
        .scheduled (2 ^ k * 1000) ((mapLookup st.connections cid).isSome)) ∧
    (maxReconnectAttempts ≤ k →
      attemptReconnect (reconnectCalls st cid k) cid =
        (reconnectCalls st cid k, .failed maxReconnectAttempts)) := by
  have hcount := reconnectCalls_counter st cid hz k
  refine ⟨hcount, ?_, ?_⟩
  · intro hk
    have hlt : (mapLookup (reconnectCalls st cid k).reconnectAttempts cid).getD 0 <
        maxReconnectAttempts := by
      rw [hcount]; omega
    rw [(attemptReconnect_spec _ _).2 hlt]
    rw [hcount, reconnectCalls_connections st cid k]
    have : min k maxReconnectAttempts = k := by omega
    rw [this]
  · intro hk
    have hge : (mapLookup (reconnectCalls st cid k).reconnectAttempts cid).getD 0 ≥
        maxReconnectAttempts := by
      rw [hcount]; omega
    rw [(attemptReconnect_spec _ _).1 hge]
    rw [hcount]
    have : min k maxReconnectAttempts = maxReconnectAttempts := by omega
    rw [this]

/-- Witness for C8: the first call waits `2^0` seconds; the call after
three recorded attempts reports `reconnect-failed` and changes nothing. -/
theorem C8_witness :
    (attemptReconnect (reconnectCalls ⟨[], []⟩ "s" 0) "s").2 =
      .scheduled (2 ^ 0 * 1000)
        ((mapLookup (⟨[], []⟩ : SSHManagerState).connections "s").isSome) ∧
    attemptReconnect (reconnectCalls ⟨[], []⟩ "s" 3) "s" =
      (reconnectCalls ⟨[], []⟩ "s" 3, .failed maxReconnectAttempts) :=
  ⟨(C8_reconnect_backoff_and_cap ⟨[], []⟩ "s" rfl 0).2.1 (by decide),
   (C8_reconnect_backoff_and_cap ⟨[], []⟩ "s" rfl 3).2.2 (by decide)⟩

/-! ## C9 -/

/-- C9: no operation ever removes a session from the registry — after any
sequence of connects, transport events, disconnects, `disconnectAll`s,
executions and reconnect attempts, every registered session is still in the
map and appears in `getActiveConnections`. -/
theorem C9_sessions_never_removed (st : SSHManagerState) (ops : List ManagerOp)
    (cid : String) (c : SSHConnection)
    (h : mapLookup st.connections cid = some c) :
    ∃ c', mapLookup (applyOps st ops).connections cid = some c' ∧
      c' ∈ getActiveConnections (applyOps st ops) := by
  have hs : (mapLookup (applyOps st ops).connections cid).isSome :=
    applyOps_lookup_isSome st ops cid (by simp [h])
  obtain ⟨c', hc'⟩ := Option.isSome_iff_exists.mp hs
  exact ⟨c', hc', mapLookup_mem_values _ _ _ hc'⟩

/-- Witness for C9: a disconnected session survives a disconnect, a close
event, a reconnect attempt, a second connect, `disconnectAll` and an
execution attempt. -/
theorem C9_witness :
    ∃ c', mapLookup (applyOps c9st c9ops).connections "s1" = some c' ∧
      c' ∈ getActiveConnections (applyOps c9st c9ops) :=
  C9_sessions_never_removed c9st c9ops "s1" c9conn (by decide)
